import Mathlib

/-!
Verification of the PakWheels car-listing scraper
(`src/PakWheelCarDataScrapper.py`), as a shallow embedding in Lean 4.

Pure helper functions of the Python source (lower-casing, stripping,
substring search, splitting, thousands-separator formatting) are embedded
as executable Lean functions over character lists; the per-listing
extraction, the retry loop of `scrape_page`, the CSV writer and the
driver loop of `main` are embedded as pure functions over explicit inputs
(attempt outcomes, per-page results) and explicit state, with the
performed sleeps and written files recorded in traces.
-/

namespace Scraper

/-! ### String primitives (Python `in`, `lower`, `strip`, `title`) -/

/-- `startsWithChars s p` : the char list `p` occurs at the start of `s`. -/
def startsWithChars : List Char → List Char → Bool
  | _, [] => true
  | [], _ :: _ => false
  | c :: cs, p :: ps => c == p && startsWithChars cs ps

/-- `containsChars s p` : the char list `p` occurs somewhere in `s`
(Python's substring operator `in`). -/
def containsChars : List Char → List Char → Bool
  | [], p => startsWithChars [] p
  | c :: cs, p => startsWithChars (c :: cs) p || containsChars cs p

/-- ASCII lower-casing of a single character (Python `str.lower` on the
ASCII inputs this program handles). -/
def lowerChar (c : Char) : Char :=
  if 'A' ≤ c ∧ c ≤ 'Z' then Char.ofNat (c.toNat + 32) else c

/-- Python `str.lower` (ASCII). -/
def lowerStr (s : String) : String :=
  String.mk (s.toList.map lowerChar)

/-- ASCII upper-casing of a single character. -/
def upperChar (c : Char) : Char :=
  if 'a' ≤ c ∧ c ≤ 'z' then Char.ofNat (c.toNat - 32) else c

def isAsciiAlpha (c : Char) : Bool :=
  ('a' ≤ c && c ≤ 'z') || ('A' ≤ c && c ≤ 'Z')

/-- Python whitespace test used by `str.strip`. -/
def isSpaceChar (c : Char) : Bool :=
  c == ' ' || c == '\t' || c == '\n' || c == '\r'

/-- Python `str.strip()`: drop leading and trailing whitespace. -/
def stripChars (s : List Char) : List Char :=
  ((s.dropWhile isSpaceChar).reverse.dropWhile isSpaceChar).reverse

def strip (s : String) : String :=
  String.mk (stripChars s.toList)

/-- Helper for `titleCase`: the boolean argument records whether the
previous character was alphabetic. -/
def titleCaseAux : Bool → List Char → List Char
  | _, [] => []
  | prevAlpha, c :: cs =>
    (if isAsciiAlpha c then (if prevAlpha then lowerChar c else upperChar c) else c)
      :: titleCaseAux (isAsciiAlpha c) cs

/-- Python `str.title()`: upper-case each letter that follows a
non-letter, lower-case the rest. -/
def titleCase (s : String) : String :=
  String.mk (titleCaseAux false s.toList)

/-! ### `extract_city_from_description` (source lines 23-33) -/

/-- The fixed, ordered city list of the source. -/
def cityList : List String :=
  ["karachi", "lahore", "islamabad", "rawalpindi",
   "faisalabad", "multan", "peshawar", "quetta",
   "sialkot", "gujranwala", "hyderabad", "bahawalpur"]

/-- Embeds `extract_city_from_description`: lower-case the description,
return the first city of `cityList` occurring as a substring, in title
case; otherwise the empty string. -/
def extract_city_from_description (desc : String) : String :=
  let descLower := lowerStr desc
  match cityList.find? (fun city => containsChars descLower.toList city.toList) with
  | some city => titleCase city
  | none => ""

/-! ### `parse_engine_specs` (source lines 36-47) -/

/-- The literal delimiter `" . "` of `engine_text.split(' . ')`. -/
def engineSep : List Char := [' ', '.', ' ']

/-- Python `engine_text.split(' . ')` over char lists: scan left to
right, cut at each non-overlapping occurrence of the 3-character
delimiter `engineSep`. The accumulator holds the current part
reversed. -/
def splitDotAux : List Char → List Char → List (List Char)
  | [], acc => [acc.reverse]
  | ' ' :: '.' :: ' ' :: rest, acc => acc.reverse :: splitDotAux rest []
  | c :: rest, acc => splitDotAux rest (c :: acc)

/-- The `if len(parts) >= k` assignments of source lines 41-46:
`fuel_type` from part 0, `engine_capacity` from part 1, `transmission`
from part 2, any missing part left `""`. -/
def assignParts : List String → String × String × String
  | [] => ("", "", "")
  | [f] => (f, "", "")
  | [f, e] => (f, e, "")
  | f :: e :: t :: _ => (f, e, t)

/-- Embeds `parse_engine_specs`: split on `" . "`, strip each part,
assign the first three parts positionally to
`(fuel_type, engine_capacity, transmission)`, missing parts empty. -/
def parse_engine_specs (engine_text : String) : String × String × String :=
  assignParts ((splitDotAux engine_text.toList []).map (fun p => String.mk (stripChars p)))

/-! ### Thousands-separator formatting (Python `f"{price:,}"`) -/

/-- Insert `','` before every digit whose 0-based index (from the least
significant digit) is a positive multiple of 3; input and output are
least-significant-digit first. -/
def commaGroupAux : Nat → List Char → List Char
  | _, [] => []
  | i, c :: cs =>
    if i ≠ 0 ∧ i % 3 = 0 then ',' :: c :: commaGroupAux (i + 1) cs
    else c :: commaGroupAux (i + 1) cs

/-- Python `f"{n:,}"` for an integer `n`: decimal digits grouped in
threes with commas, a leading minus sign for negatives. -/
def formatThousands (n : Int) : String :=
  let digitsLsd := (Nat.toDigits 10 n.natAbs).reverse
  let grouped := (commaGroupAux 0 digitsLsd).reverse
  (if n < 0 then "-" else "") ++ String.mk grouped

/-! ### Data model of one listing's embedded structured data -/

/-- A JSON scalar as the structured-data block holds it: a number or a
string (§9 of the spec: "price/year as maybe number, maybe string"). -/
inductive JVal
  | num (n : Int)
  | str (s : String)
deriving DecidableEq, Repr

/-- Python `str(v)` on a `JVal`. -/
def JVal.pyStr : JVal → String
  | .num n => toString n
  | .str s => s

/-- The nested `offers` object: `price`, `priceCurrency`, `url`,
each possibly absent. -/
structure Offers where
  price : Option JVal
  priceCurrency : Option String
  url : Option String
deriving DecidableEq, Repr

/-- The empty offer object (`data.get("offers", {}) or {}`). -/
def Offers.empty : Offers := ⟨none, none, none⟩

/-- The fields of the embedded JSON-LD block that the extractor reads,
each possibly absent. -/
structure LdData where
  name : Option String
  description : Option String
  modelDate : Option JVal
  offers : Option Offers
deriving DecidableEq, Repr

/-- The per-listing `<script type="application/ld+json">` tag: absent
(no tag or no string content), malformed (`json.loads` raises), or
successfully parsed. -/
inductive ScriptTag
  | absent
  | malformed
  | parsed (d : LdData)
deriving DecidableEq, Repr

/-- One `li` item of the `ul.ad-specs` list: the icon's class list
(empty when the icon is absent) and the item's text. -/
structure SpecItem where
  classes : List String
  text : String
deriving DecidableEq, Repr

/-- One `li.classified-listing` container: its script tag and its
optional spec list. -/
structure Listing where
  script : ScriptTag
  specs : Option (List SpecItem)
deriving DecidableEq, Repr

/-- One output record (`cars.append({...})`, source lines 102-114). -/
structure Car where
  title : String
  price : String
  city : String
  year : String
  mileage : String
  color : String
  registered_in : String
  fuel_type : String
  engine_capacity : String
  transmission : String
  link : String
deriving DecidableEq, Repr

/-! ### Spec-list classification (source lines 88-101) -/

/-- The branch of the `if`/`elif` chain an item falls into. -/
inductive SpecKind
  | mileage
  | color
  | registration
  | engine
  | other
deriving DecidableEq, Repr

/-- The `if any("pw-..." in c for c in classes)` / `elif` chain: the
first matching icon-class token classifies the item. -/
def classifySpec (it : SpecItem) : SpecKind :=
  if it.classes.any (fun c => containsChars c.toList "pw-mileage".toList) then .mileage
  else if it.classes.any (fun c => containsChars c.toList "pw-color".toList) then .color
  else if it.classes.any (fun c => containsChars c.toList "pw-registration".toList) then .registration
  else if it.classes.any (fun c => containsChars c.toList "pw-engine".toList) then .engine
  else .other

/-- The six fields the spec loop fills, all starting empty. -/
structure SpecFields where
  mileage : String
  color : String
  registered_in : String
  fuel_type : String
  engine_capacity : String
  transmission : String
deriving DecidableEq, Repr

def SpecFields.init : SpecFields := ⟨"", "", "", "", "", ""⟩

/-- One iteration of the spec loop: assign (overwrite) the field of the
matched branch. -/
def specStep (acc : SpecFields) (it : SpecItem) : SpecFields :=
  match classifySpec it with
  | .mileage => { acc with mileage := it.text }
  | .color => { acc with color := it.text }
  | .registration => { acc with registered_in := it.text }
  | .engine =>
    let (f, e, t) := parse_engine_specs it.text
    { acc with fuel_type := f, engine_capacity := e, transmission := t }
  | .other => acc

/-- The whole `for spec_li in specs_ul.find_all("li")` loop. -/
def processSpecs (items : List SpecItem) : SpecFields :=
  items.foldl specStep SpecFields.init

/-! ### Per-listing extraction (source lines 60-114) -/

/-- Extraction of one listing container: `none` exactly when the
structured-data block is absent or malformed (`continue`), otherwise the
assembled record. -/
def extractListing (li : Listing) : Option Car :=
  match li.script with
  | .absent => none
  | .malformed => none
  | .parsed d =>
    let title := strip (d.name.getD "")
    let desc := strip (d.description.getD "")
    let year := d.modelDate.getD (.str "")
    let offers := d.offers.getD Offers.empty
    let price := offers.price.getD (.str "")
    let currency := offers.priceCurrency.getD "PKR"
    let link := offers.url.getD ""
    let city := extract_city_from_description desc
    let yearStr := year.pyStr
    let priceStr := match price with
      | .num n => currency ++ " " ++ formatThousands n
      | .str s => s
    let sf := processSpecs ((li.specs.getD []))
    some {
      title := title
      price := priceStr
      city := city
      year := yearStr
      mileage := sf.mileage
      color := sf.color
      registered_in := sf.registered_in
      fuel_type := sf.fuel_type
      engine_capacity := sf.engine_capacity
      transmission := sf.transmission
      link := link
    }

/-- Extraction of a whole page body: one record per listing whose
structured data parsed, in document order. -/
def extractPage (lis : List Listing) : List Car :=
  lis.filterMap extractListing

/-! ### `scrape_page` retry loop (source lines 50-138) -/

/-- Module-level constants of the source. -/
def MAX_RETRIES : Nat := 5

def BASE_DELAY : Nat := 2

def SAVE_INTERVAL : Nat := 20

/-- What one HTTP attempt does: succeed with a page body (a list of
listing containers), raise a timeout (`ReadTimeout`/`Timeout`), raise a
transport error (`RequestException`), or raise anything else. -/
inductive AttemptOutcome
  | ok (listings : List Listing)
  | timeout
  | transportError
  | unexpectedError
deriving DecidableEq, Repr

/-- The result of `scrape_page` together with its observable trace:
the returned records, the number of attempts made, and the sleeps
performed between attempts (in seconds, in order). -/
structure FetchResult where
  cars : List Car
  attemptsUsed : Nat
  waits : List Nat
deriving DecidableEq, Repr

/-- The `for attempt in range(MAX_RETRIES)` loop of `scrape_page`.
`fuel` is the number of remaining loop iterations, `attempt` the current
0-based attempt index; the two are kept in sync by the callers
(`fuel = MAX_RETRIES - attempt`). On success the extracted records are
returned; on a timeout or transport error the loop sleeps
`BASE_DELAY * 2 ^ attempt` and retries unless this was the last attempt;
on any other error it returns empty immediately. -/
def scrapeLoop (outcomes : Nat → AttemptOutcome) : Nat → Nat → FetchResult
  | 0, attempt => ⟨[], attempt, []⟩
  | fuel + 1, attempt =>
    match outcomes attempt with
    | .ok listings => ⟨extractPage listings, attempt + 1, []⟩
    | .timeout =>
      if attempt < MAX_RETRIES - 1 then
        let rest := scrapeLoop outcomes fuel (attempt + 1)
        ⟨rest.cars, rest.attemptsUsed, BASE_DELAY * 2 ^ attempt :: rest.waits⟩
      else ⟨[], attempt + 1, []⟩
    | .transportError =>
      if attempt < MAX_RETRIES - 1 then
        let rest := scrapeLoop outcomes fuel (attempt + 1)
        ⟨rest.cars, rest.attemptsUsed, BASE_DELAY * 2 ^ attempt :: rest.waits⟩
      else ⟨[], attempt + 1, []⟩
    | .unexpectedError => ⟨[], attempt + 1, []⟩

/-- Embeds `scrape_page` for one page, the per-attempt network outcomes
given as input. -/
def scrape_page (outcomes : Nat → AttemptOutcome) : FetchResult :=
  scrapeLoop outcomes MAX_RETRIES 0

/-! ### `save_to_csv` (source lines 141-159) -/

/-- The fixed CSV header row. -/
def fieldnames : List String :=
  ["title", "price", "city", "year", "mileage", "color",
   "registered_in", "fuel_type", "engine_capacity", "transmission", "link"]

/-- One CSV row of a record, in field order. -/
def carToRow (c : Car) : List String :=
  [c.title, c.price, c.city, c.year, c.mileage, c.color,
   c.registered_in, c.fuel_type, c.engine_capacity, c.transmission, c.link]

/-- The content `save_to_csv` writes: the header row followed by one row
per record, in order. -/
def csvContent (cars : List Car) : List (List String) :=
  fieldnames :: cars.map carToRow

/-! ### Driver loop of `main` (source lines 162-229) -/

/-- The backup filename used at a checkpoint on page `p`. -/
def backupName (p : Nat) : String :=
  "pakwheels_cars_backup_page" ++ toString p ++ ".csv"

/-- The fixed final output filename. -/
def finalName : String := "pakwheels_cars_final.csv"

def MAX_PAGES : Nat := 2000

/-- The driver's state: the accumulated records, the current page
number, the consecutive-empty counter, plus the observable traces of
files written (filename and content, in write order) and sleeps
performed (in seconds, as exact rationals since one interval is 1.5). -/
structure DriverState where
  all_cars : List Car
  page : Nat
  consecutive_empty : Nat
  files : List (String × List (List String))
  sleeps : List ℚ
deriving DecidableEq, Repr

/-- The state at the top of `main`: empty collection, page 1, counter 0,
nothing written, nothing slept. -/
def initState : DriverState := ⟨[], 1, 0, [], []⟩

/-- One iteration of the `while page <= MAX_PAGES` loop, with the
records the page yielded given by `results page`. An empty page bumps
the counter, advances the page and sleeps 2; a non-empty page resets the
counter, appends the records, checkpoints when `page % SAVE_INTERVAL == 0`,
advances the page and sleeps 1.5. -/
def driverStep (results : Nat → List Car) (s : DriverState) : DriverState :=
  let cars := results s.page
  if cars = [] then
    { s with
      consecutive_empty := s.consecutive_empty + 1
      page := s.page + 1
      sleeps := s.sleeps ++ [(2 : ℚ)] }
  else
    let s1 := { s with consecutive_empty := 0, all_cars := s.all_cars ++ cars }
    let s2 :=
      if s1.page % SAVE_INTERVAL = 0 then
        { s1 with files := s1.files ++ [(backupName s1.page, csvContent s1.all_cars)] }
      else s1
    { s2 with page := s2.page + 1, sleeps := s2.sleeps ++ [(1.5 : ℚ)] }

/-- Runs the driver loop for at most `n` iterations (fewer when the page
ceiling is passed first). `n` smaller than the number of remaining pages
models an interrupt (`KeyboardInterrupt`) or an unhandled error cutting
the loop short; `n ≥ MAX_PAGES` models a completed run. -/
def runLoop (results : Nat → List Car) : Nat → DriverState → DriverState
  | 0, s => s
  | n + 1, s =>
    if s.page ≤ MAX_PAGES then runLoop results n (driverStep results s) else s

/-- The `finally` block: write the final file exactly when at least one
record was collected. -/
def finalize (s : DriverState) : DriverState :=
  if s.all_cars = [] then s
  else { s with files := s.files ++ [(finalName, csvContent s.all_cars)] }

/-- Embeds a whole run of `main`: loop (possibly cut short after `n`
iterations), then finalization — the `finally` block runs on every
terminal path. -/
def mainRun (results : Nat → List Car) (n : Nat) : DriverState :=
  finalize (runLoop results n initState)

/-! ### The driver with the consecutive-empty counter removed (for the
counter-inertness claim: same code with the counter field deleted). -/

/-- Driver state without the `consecutive_empty` field. -/
structure DriverStateNC where
  all_cars : List Car
  page : Nat
  files : List (String × List (List String))
  sleeps : List ℚ
deriving DecidableEq, Repr

/-- Forget the counter. -/
def dropCounter (s : DriverState) : DriverStateNC :=
  ⟨s.all_cars, s.page, s.files, s.sleeps⟩

def initStateNC : DriverStateNC := ⟨[], 1, [], []⟩

/-- `driverStep` with the two counter assignments deleted and nothing
else changed. -/
def driverStepNC (results : Nat → List Car) (s : DriverStateNC) : DriverStateNC :=
  let cars := results s.page
  if cars = [] then
    { s with page := s.page + 1, sleeps := s.sleeps ++ [(2 : ℚ)] }
  else
    let s1 := { s with all_cars := s.all_cars ++ cars }
    let s2 :=
      if s1.page % SAVE_INTERVAL = 0 then
        { s1 with files := s1.files ++ [(backupName s1.page, csvContent s1.all_cars)] }
      else s1
    { s2 with page := s2.page + 1, sleeps := s2.sleeps ++ [(1.5 : ℚ)] }

def runLoopNC (results : Nat → List Car) : Nat → DriverStateNC → DriverStateNC
  | 0, s => s
  | n + 1, s =>
    if s.page ≤ MAX_PAGES then runLoopNC results n (driverStepNC results s) else s

def finalizeNC (s : DriverStateNC) : DriverStateNC :=
  if s.all_cars = [] then s
  else { s with files := s.files ++ [(finalName, csvContent s.all_cars)] }

def mainRunNC (results : Nat → List Car) (n : Nat) : DriverStateNC :=
  finalizeNC (runLoopNC results n initStateNC)

/-! ## Shared lemmas -/

/-- Splitting a string that contains no occurrence of the delimiter
yields the single part `acc.reverse ++ s`. -/
theorem splitDot_no_sep : ∀ (s acc : List Char),
    containsChars s engineSep = false →
    splitDotAux s acc = [acc.reverse ++ s] := by
  intro s acc
  induction s, acc using splitDotAux.induct with
  | case1 acc => intro _; simp [splitDotAux]
  | case2 rest acc ih =>
    intro h
    simp [containsChars, startsWithChars, engineSep] at h
  | case3 c rest acc hne ih =>
    intro h
    rw [splitDotAux.eq_3 acc c rest hne]
    rw [containsChars] at h
    simp only [Bool.or_eq_false_iff] at h
    rw [ih h.2]
    simp

/-- `find?` over a title-cased list, with a predicate that lower-cases
its argument first, agrees with `find?` over the original list when
title-casing round-trips through lower-casing on every element. -/
theorem find_titleCase_comm (p : String → Bool) :
    ∀ l : List String, (∀ c ∈ l, lowerStr (titleCase c) = c) →
      (l.map titleCase).find? (fun c => p (lowerStr c)) = (l.find? p).map titleCase := by
  intro l
  induction l with
  | nil => simp
  | cons a t ih =>
    intro hl
    simp only [List.map_cons, List.find?]
    rw [hl a (by simp)]
    cases hpa : p a
    · simpa [hpa] using ih (fun c hc => hl c (by simp [hc]))
    · simp [hpa]

/-- The spec-loop step preserves every field that its item's classified
branch does not assign; stated here for `mileage`. -/
theorem specStep_pres_mileage : ∀ (acc : SpecFields) (it : SpecItem),
    classifySpec it ≠ .mileage → (specStep acc it).mileage = acc.mileage := by
  intro acc it h
  cases hc : classifySpec it
  · exact absurd hc h
  · simp [specStep, hc]
  · simp [specStep, hc]
  · rcases hpe : parse_engine_specs it.text with ⟨f, e, t⟩
    simp [specStep, hc, hpe]
  · simp [specStep, hc]

theorem specStep_pres_color : ∀ (acc : SpecFields) (it : SpecItem),
    classifySpec it ≠ .color → (specStep acc it).color = acc.color := by
  intro acc it h
  cases hc : classifySpec it
  · simp [specStep, hc]
  · exact absurd hc h
  · simp [specStep, hc]
  · rcases hpe : parse_engine_specs it.text with ⟨f, e, t⟩
    simp [specStep, hc, hpe]
  · simp [specStep, hc]

theorem specStep_pres_registered : ∀ (acc : SpecFields) (it : SpecItem),
    classifySpec it ≠ .registration → (specStep acc it).registered_in = acc.registered_in := by
  intro acc it h
  cases hc : classifySpec it
  · simp [specStep, hc]
  · simp [specStep, hc]
  · exact absurd hc h
  · rcases hpe : parse_engine_specs it.text with ⟨f, e, t⟩
    simp [specStep, hc, hpe]
  · simp [specStep, hc]

theorem specStep_pres_fuel : ∀ (acc : SpecFields) (it : SpecItem),
    classifySpec it ≠ .engine → (specStep acc it).fuel_type = acc.fuel_type := by
  intro acc it h
  cases hc : classifySpec it
  · simp [specStep, hc]
  · simp [specStep, hc]
  · simp [specStep, hc]
  · exact absurd hc h
  · simp [specStep, hc]

theorem specStep_pres_capacity : ∀ (acc : SpecFields) (it : SpecItem),
    classifySpec it ≠ .engine → (specStep acc it).engine_capacity = acc.engine_capacity := by
  intro acc it h
  cases hc : classifySpec it
  · simp [specStep, hc]
  · simp [specStep, hc]
  · simp [specStep, hc]
  · exact absurd hc h
  · simp [specStep, hc]

theorem specStep_pres_transmission : ∀ (acc : SpecFields) (it : SpecItem),
    classifySpec it ≠ .engine → (specStep acc it).transmission = acc.transmission := by
  intro acc it h
  cases hc : classifySpec it
  · simp [specStep, hc]
  · simp [specStep, hc]
  · simp [specStep, hc]
  · exact absurd hc h
  · simp [specStep, hc]

theorem specStep_set_mileage : ∀ (acc : SpecFields) (it : SpecItem),
    classifySpec it = .mileage → (specStep acc it).mileage = it.text := by
  intro acc it h; simp [specStep, h]

theorem specStep_set_color : ∀ (acc : SpecFields) (it : SpecItem),
    classifySpec it = .color → (specStep acc it).color = it.text := by
  intro acc it h; simp [specStep, h]

theorem specStep_set_registered : ∀ (acc : SpecFields) (it : SpecItem),
    classifySpec it = .registration → (specStep acc it).registered_in = it.text := by
  intro acc it h; simp [specStep, h]

theorem specStep_set_fuel : ∀ (acc : SpecFields) (it : SpecItem),
    classifySpec it = .engine → (specStep acc it).fuel_type = (parse_engine_specs it.text).1 := by
  intro acc it h
  rcases hpe : parse_engine_specs it.text with ⟨f, e, t⟩
  simp [specStep, h, hpe]

theorem specStep_set_capacity : ∀ (acc : SpecFields) (it : SpecItem),
    classifySpec it = .engine →
      (specStep acc it).engine_capacity = (parse_engine_specs it.text).2.1 := by
  intro acc it h
  rcases hpe : parse_engine_specs it.text with ⟨f, e, t⟩
  simp [specStep, h, hpe]

theorem specStep_set_transmission : ∀ (acc : SpecFields) (it : SpecItem),
    classifySpec it = .engine →
      (specStep acc it).transmission = (parse_engine_specs it.text).2.2 := by
  intro acc it h
  rcases hpe : parse_engine_specs it.text with ⟨f, e, t⟩
  simp [specStep, h, hpe]

/-- Folding the spec loop over items none of which is classified `K`
leaves a field that only `K`-classified items assign unchanged. -/
theorem foldl_proj_pres (proj : SpecFields → String) (K : SpecKind)
    (hpres : ∀ acc it, classifySpec it ≠ K → proj (specStep acc it) = proj acc) :
    ∀ (ys : List SpecItem) (acc : SpecFields), (∀ b ∈ ys, classifySpec b ≠ K) →
      proj (ys.foldl specStep acc) = proj acc := by
  intro ys
  induction ys with
  | nil => intro acc _; rfl
  | cons b t ih =>
    intro acc hb
    simp only [List.foldl_cons]
    rw [ih (specStep acc b) (fun x hx => hb x (by simp [hx])), hpres acc b (hb b (by simp))]

/-- In the spec loop, a field assigned by `K`-classified items ends up
holding the value contributed by the last `K`-classified item. -/
theorem processSpecs_last_classified (proj : SpecFields → String) (g : SpecItem → String)
    (K : SpecKind)
    (hset : ∀ acc it, classifySpec it = K → proj (specStep acc it) = g it)
    (hpres : ∀ acc it, classifySpec it ≠ K → proj (specStep acc it) = proj acc)
    (xs ys : List SpecItem) (a : SpecItem) (ha : classifySpec a = K)
    (hys : ∀ b ∈ ys, classifySpec b ≠ K) :
    proj (processSpecs (xs ++ a :: ys)) = g a := by
  unfold processSpecs
  rw [List.foldl_append, List.foldl_cons]
  rw [foldl_proj_pres proj K hpres ys _ hys, hset _ a ha]

/-! ## Claims -/

/-- C4 counterexample: the input `" Petrol "` contains no `" . "`
delimiter, yet `parse_engine_specs` assigns `"Petrol"` — not the whole
string `" Petrol "` — to `fuel_type`, because the source strips each
part (`p.strip()` in line 37). -/
theorem C4_counterexample :
    containsChars " Petrol ".toList engineSep = false ∧
    parse_engine_specs " Petrol " = ("Petrol", "", "") ∧
    (" Petrol " : String) ≠ "Petrol" :=
  ⟨by decide, by decide, by decide⟩

/-- C4 (amended): engine-spec parsing splits on the literal delimiter
`" . "` and strips each part; `"Petrol . 1300 cc . Automatic"` yields
the three fields; with fewer than three parts the missing trailing
fields are empty; with no delimiter the whole string, stripped of
surrounding whitespace, is assigned to `fuel_type` and the other two
fields are empty. -/
theorem C4_engine_spec_parsing :
    parse_engine_specs "Petrol . 1300 cc . Automatic" = ("Petrol", "1300 cc", "Automatic")
    ∧ (∀ s : String, (splitDotAux s.toList []).length ≤ 2 → (parse_engine_specs s).2.2 = "")
    ∧ (∀ s : String, (splitDotAux s.toList []).length ≤ 1 →
        (parse_engine_specs s).2.1 = "" ∧ (parse_engine_specs s).2.2 = "")
    ∧ (∀ s : String, containsChars s.toList engineSep = false →
        parse_engine_specs s = (strip s, "", "")) := by
  refine ⟨by decide, ?_, ?_, ?_⟩
  · intro s h
    unfold parse_engine_specs
    rcases hp : (splitDotAux s.toList []).map (fun p => String.mk (stripChars p)) with
      _ | ⟨a, _ | ⟨b, _ | ⟨c, t⟩⟩⟩
    · rfl
    · rfl
    · rfl
    · exfalso
      have hlen := congrArg List.length hp
      simp only [List.length_map, List.length_cons] at hlen
      omega
  · intro s h
    unfold parse_engine_specs
    rcases hp : (splitDotAux s.toList []).map (fun p => String.mk (stripChars p)) with
      _ | ⟨a, _ | ⟨b, t⟩⟩
    · exact ⟨rfl, rfl⟩
    · exact ⟨rfl, rfl⟩
    · exfalso
      have hlen := congrArg List.length hp
      simp only [List.length_map, List.length_cons] at hlen
      omega
  · intro s h
    unfold parse_engine_specs
    rw [splitDot_no_sep s.toList [] h]
    rfl

/-- C4 witness: the amended no-delimiter clause applied at the concrete
input `"Diesel"`. -/
theorem C4_witness :
    containsChars "Diesel".toList engineSep = false ∧
    parse_engine_specs "Diesel" = (strip "Diesel", "", "") :=
  ⟨by decide, C4_engine_spec_parsing.2.2.2 "Diesel" (by decide)⟩

/-- C5: city extraction is case-insensitive and returns the first city
of the fixed ordered list (Karachi, Lahore, Islamabad, Rawalpindi,
Faisalabad, Multan, Peshawar, Quetta, Sialkot, Gujranwala, Hyderabad,
Bahawalpur) occurring as a substring of the lowercased description,
rendered in title case, and the empty string when none occurs. -/
theorem C5_city_extraction (desc : String) :
    extract_city_from_description desc =
      match ["Karachi", "Lahore", "Islamabad", "Rawalpindi",
             "Faisalabad", "Multan", "Peshawar", "Quetta",
             "Sialkot", "Gujranwala", "Hyderabad", "Bahawalpur"].find?
          (fun city => containsChars (lowerStr desc).toList (lowerStr city).toList) with
      | some city => city
      | none => "" := by
  have hlist : ["Karachi", "Lahore", "Islamabad", "Rawalpindi",
                "Faisalabad", "Multan", "Peshawar", "Quetta",
                "Sialkot", "Gujranwala", "Hyderabad", "Bahawalpur"]
      = cityList.map titleCase := by decide
  rw [hlist]
  rw [show (fun city => containsChars (lowerStr desc).toList (lowerStr city).toList)
      = (fun city => (fun c => containsChars (lowerStr desc).toList c.toList) (lowerStr city))
    from rfl]
  rw [find_titleCase_comm (fun c => containsChars (lowerStr desc).toList c.toList) cityList
    (by decide)]
  simp only [extract_city_from_description]
  cases hf : cityList.find? (fun c => containsChars (lowerStr desc).toList c.toList) with
  | none => rfl
  | some c => rfl

/-- C2: for a listing with a parsed structured-data block, a numeric
offer price yields `"<currency> <price with thousands separators>"`, a
string price passes through unchanged, an absent price yields `""`
(`str("")`), and an absent `priceCurrency` key defaults the currency to
`"PKR"`. -/
theorem C2_price_formatting (nm ds : Option String) (md : Option JVal) (off : Offers)
    (specs : Option (List SpecItem)) :
    ∃ c, extractListing ⟨.parsed ⟨nm, ds, md, some off⟩, specs⟩ = some c
      ∧ (∀ n : Int, off.price = some (.num n) →
          c.price = off.priceCurrency.getD "PKR" ++ " " ++ formatThousands n)
      ∧ (∀ s : String, off.price = some (.str s) → c.price = s)
      ∧ (off.price = none → c.price = "")
      ∧ (∀ n : Int, off.price = some (.num n) → off.priceCurrency = none →
          c.price = "PKR" ++ " " ++ formatThousands n) := by
  refine ⟨_, rfl, ?_, ?_, ?_, ?_⟩
  · intro n hp
    simp [extractListing, hp]
  · intro s hp
    simp [extractListing, hp]
  · intro hp
    simp [extractListing, hp]
  · intro n hp hc
    simp [extractListing, hp, hc]

/-- C2 witness: a concrete listing whose offer has the numeric price
1250000 and no `priceCurrency` key produces the price string
`"PKR 1,250,000"`. -/
theorem C2_witness :
    ∃ c, extractListing ⟨.parsed ⟨some "Car", some "d", some (.num 2019),
        some ⟨some (.num 1250000), none, some "u"⟩⟩, none⟩ = some c
      ∧ c.price = "PKR 1,250,000" := by
  obtain ⟨c, hc, _, _, _, h4⟩ :=
    C2_price_formatting (some "Car") (some "d") (some (.num 2019))
      ⟨some (.num 1250000), none, some "u"⟩ none
  refine ⟨c, hc, ?_⟩
  rw [h4 1250000 rfl rfl]
  decide

/-- C3: a listing whose structured-data block is absent or malformed
produces no record, the failure does not propagate, and the listings
before and after it on the page are extracted exactly as without it. -/
theorem C3_malformed_listing_skipped (pre post : List Listing) (li : Listing)
    (h : li.script = .absent ∨ li.script = .malformed) :
    extractListing li = none
    ∧ extractPage (pre ++ li :: post) = extractPage pre ++ extractPage post := by
  have hnone : extractListing li = none := by
    rcases h with h | h <;> simp [extractListing, h]
  exact ⟨hnone, by simp [extractPage, List.filterMap_append, List.filterMap_cons, hnone]⟩

/-- C3 witness: a page with a malformed listing between two well-formed
ones yields exactly the two well-formed records. -/
theorem C3_witness :
    extractListing ⟨ScriptTag.malformed, none⟩ = none
    ∧ extractPage ([⟨.parsed ⟨some "A", none, none, none⟩, none⟩]
        ++ ⟨ScriptTag.malformed, none⟩ :: [⟨.parsed ⟨some "B", none, none, none⟩, none⟩])
      = extractPage [⟨.parsed ⟨some "A", none, none, none⟩, none⟩]
        ++ extractPage [⟨.parsed ⟨some "B", none, none, none⟩, none⟩] :=
  C3_malformed_listing_skipped
    [⟨.parsed ⟨some "A", none, none, none⟩, none⟩]
    [⟨.parsed ⟨some "B", none, none, none⟩, none⟩]
    ⟨ScriptTag.malformed, none⟩ (Or.inr rfl)

/-- C10: when a listing's spec list contains two or more items
classified under the same icon-class token, the emitted record's
corresponding field holds the value contributed by the last such item
in document order (the later item overwrites the earlier one); for the
engine token the three engine fields all come from the last
engine-classified item's text. -/
theorem C10_last_spec_item_wins (nm ds : Option String) (md : Option JVal)
    (off : Option Offers) (xs ys : List SpecItem) (a : SpecItem) :
    ∃ c, extractListing ⟨.parsed ⟨nm, ds, md, off⟩, some (xs ++ a :: ys)⟩ = some c
      ∧ ((∃ b ∈ xs, classifySpec b = .mileage) → classifySpec a = .mileage →
          (∀ b ∈ ys, classifySpec b ≠ .mileage) → c.mileage = a.text)
      ∧ ((∃ b ∈ xs, classifySpec b = .color) → classifySpec a = .color →
          (∀ b ∈ ys, classifySpec b ≠ .color) → c.color = a.text)
      ∧ ((∃ b ∈ xs, classifySpec b = .registration) → classifySpec a = .registration →
          (∀ b ∈ ys, classifySpec b ≠ .registration) → c.registered_in = a.text)
      ∧ ((∃ b ∈ xs, classifySpec b = .engine) → classifySpec a = .engine →
          (∀ b ∈ ys, classifySpec b ≠ .engine) →
          c.fuel_type = (parse_engine_specs a.text).1
          ∧ c.engine_capacity = (parse_engine_specs a.text).2.1
          ∧ c.transmission = (parse_engine_specs a.text).2.2) := by
  refine ⟨_, rfl, ?_, ?_, ?_, ?_⟩
  · intro _ ha hys
    exact processSpecs_last_classified (fun sf => sf.mileage) (fun it => it.text) .mileage
      specStep_set_mileage specStep_pres_mileage xs ys a ha hys
  · intro _ ha hys
    exact processSpecs_last_classified (fun sf => sf.color) (fun it => it.text) .color
      specStep_set_color specStep_pres_color xs ys a ha hys
  · intro _ ha hys
    exact processSpecs_last_classified (fun sf => sf.registered_in) (fun it => it.text)
      .registration specStep_set_registered specStep_pres_registered xs ys a ha hys
  · intro _ ha hys
    refine ⟨?_, ?_, ?_⟩
    · exact processSpecs_last_classified (fun sf => sf.fuel_type)
        (fun it => (parse_engine_specs it.text).1) .engine
        specStep_set_fuel specStep_pres_fuel xs ys a ha hys
    · exact processSpecs_last_classified (fun sf => sf.engine_capacity)
        (fun it => (parse_engine_specs it.text).2.1) .engine
        specStep_set_capacity specStep_pres_capacity xs ys a ha hys
    · exact processSpecs_last_classified (fun sf => sf.transmission)
        (fun it => (parse_engine_specs it.text).2.2) .engine
        specStep_set_transmission specStep_pres_transmission xs ys a ha hys

/-- C10 witness: two `pw-mileage` items on one listing; the record's
mileage is the text of the second (later) one. -/
theorem C10_witness :
    ∃ c, extractListing ⟨.parsed ⟨none, none, none, none⟩,
        some ([⟨["pw-mileage"], "10,000 km"⟩] ++ ⟨["pw-mileage"], "20,000 km"⟩ :: [])⟩ = some c
      ∧ c.mileage = "20,000 km" := by
  obtain ⟨c, hc, hm, _, _, _⟩ := C10_last_spec_item_wins none none none none
    [⟨["pw-mileage"], "10,000 km"⟩] [] ⟨["pw-mileage"], "20,000 km"⟩
  exact ⟨c, hc, hm (by decide) (by decide) (by decide)⟩

/-- C1: if the first four attempts of a page fetch raise a timeout or a
transport error, then a success on the fifth attempt returns that page's
extracted records with 5 attempts used, and a timeout or transport
error on the fifth attempt returns the empty result with 5 attempts
used; in both cases the waits performed are exactly
`BASE_DELAY * 2 ^ i` after each failed attempt `i < 4` and no wait
follows the final attempt. -/
theorem C1_retry_backoff (outcomes : Nat → AttemptOutcome)
    (hfail : ∀ i, i < 4 → outcomes i = .timeout ∨ outcomes i = .transportError) :
    (∀ listings : List Listing, outcomes 4 = .ok listings →
      scrape_page outcomes = ⟨extractPage listings, 5,
        [BASE_DELAY * 2 ^ 0, BASE_DELAY * 2 ^ 1, BASE_DELAY * 2 ^ 2, BASE_DELAY * 2 ^ 3]⟩)
    ∧ ((outcomes 4 = .timeout ∨ outcomes 4 = .transportError) →
      scrape_page outcomes = ⟨[], 5,
        [BASE_DELAY * 2 ^ 0, BASE_DELAY * 2 ^ 1, BASE_DELAY * 2 ^ 2, BASE_DELAY * 2 ^ 3]⟩) := by
  have h0 := hfail 0 (by omega)
  have h1 := hfail 1 (by omega)
  have h2 := hfail 2 (by omega)
  have h3 := hfail 3 (by omega)
  constructor
  · intro listings h4
    rcases h0 with h0 | h0 <;> rcases h1 with h1 | h1 <;> rcases h2 with h2 | h2 <;>
      rcases h3 with h3 | h3 <;>
      simp [scrape_page, scrapeLoop, h0, h1, h2, h3, h4, MAX_RETRIES, BASE_DELAY]
  · intro h4
    rcases h4 with h4 | h4 <;> rcases h0 with h0 | h0 <;> rcases h1 with h1 | h1 <;>
      rcases h2 with h2 | h2 <;> rcases h3 with h3 | h3 <;>
      simp [scrape_page, scrapeLoop, h0, h1, h2, h3, h4, MAX_RETRIES, BASE_DELAY]

/-- Four timeouts followed by a success: the concrete attempt-outcome
sequence of the C1 witness. -/
def witnessOutcomes : Nat → AttemptOutcome :=
  fun i => if i < 4 then .timeout else .ok []

/-- C1 witness: on four timeouts followed by a successful empty page,
`scrape_page` returns after 5 attempts with waits 2, 4, 8, 16. -/
theorem C1_witness :
    (∀ i, i < 4 → witnessOutcomes i = AttemptOutcome.timeout
      ∨ witnessOutcomes i = AttemptOutcome.transportError)
    ∧ scrape_page witnessOutcomes = ⟨[], 5,
        [BASE_DELAY * 2 ^ 0, BASE_DELAY * 2 ^ 1, BASE_DELAY * 2 ^ 2, BASE_DELAY * 2 ^ 3]⟩ := by
  refine ⟨by decide, ?_⟩
  have h := (C1_retry_backoff witnessOutcomes (by decide)).1 [] (by decide)
  simpa using h

/-! ## Driver-loop lemmas -/

/-- The records the driver collects from pages `p, p+1, …, p+n-1`, in
page order. -/
def pageBlock (results : Nat → List Car) (p n : Nat) : List Car :=
  ((List.range' p n).map results).flatten

/-- A concrete record used by witnesses. -/
def sampleCar : Car :=
  ⟨"Toyota Corolla", "PKR 1,250,000", "Karachi", "2019", "", "", "", "", "", "", "url"⟩

/-- Past the page ceiling the loop is a no-op. -/
theorem runLoop_stuck (results : Nat → List Car) (s : DriverState)
    (hp : ¬ s.page ≤ MAX_PAGES) : ∀ n, runLoop results n s = s := by
  intro n
  cases n with
  | zero => rfl
  | succ j => rw [runLoop]; simp [hp]

/-- Loop iterations compose. -/
theorem runLoop_add (results : Nat → List Car) :
    ∀ (m n : Nat) (s : DriverState),
      runLoop results (m + n) s = runLoop results n (runLoop results m s) := by
  intro m
  induction m with
  | zero => intro n s; rw [Nat.zero_add]; rfl
  | succ k ih =>
    intro n s
    rw [Nat.succ_add]
    rw [show runLoop results (k + n + 1) s
        = if s.page ≤ MAX_PAGES then runLoop results (k + n) (driverStep results s) else s
      from rfl]
    rw [show runLoop results (k + 1) s
        = if s.page ≤ MAX_PAGES then runLoop results k (driverStep results s) else s
      from rfl]
    by_cases hp : s.page ≤ MAX_PAGES
    · simp only [hp, if_true]
      exact ih n (driverStep results s)
    · simp only [hp, if_false]
      rw [runLoop_stuck results s hp n]

/-- One non-empty, non-checkpoint iteration, explicitly. -/
theorem driverStep_nonempty (results : Nat → List Car) (s : DriverState)
    (h : results s.page ≠ []) (hck : s.page % SAVE_INTERVAL ≠ 0) :
    driverStep results s =
      ⟨s.all_cars ++ results s.page, s.page + 1, 0, s.files, s.sleeps ++ [(1.5 : ℚ)]⟩ := by
  simp [driverStep, h, hck]

/-- Running `n` iterations over non-empty pages none of which hits the
checkpoint modulus appends the pages' records and `n` sleeps of 1.5,
advances the page by `n`, zeroes the counter (for `n > 0`), and writes
no file. -/
theorem runBlock (results : Nat → List Car) :
    ∀ (n : Nat) (s : DriverState),
      (∀ k, k < n → results (s.page + k) ≠ []) →
      (∀ k, k < n → (s.page + k) % SAVE_INTERVAL ≠ 0) →
      s.page + n ≤ MAX_PAGES + 1 →
      runLoop results n s =
        ⟨s.all_cars ++ pageBlock results s.page n, s.page + n,
          (if n = 0 then s.consecutive_empty else 0), s.files,
          s.sleeps ++ List.replicate n (1.5 : ℚ)⟩ := by
  intro n
  induction n with
  | zero =>
    intro s _ _ _
    simp [runLoop, pageBlock]
  | succ m ih =>
    intro s hne hck hbound
    rw [show runLoop results (m + 1) s
        = if s.page ≤ MAX_PAGES then runLoop results m (driverStep results s) else s
      from rfl]
    have hp : s.page ≤ MAX_PAGES := by omega
    simp only [hp, if_true]
    rw [driverStep_nonempty results s (by simpa using hne 0 (by omega))
      (by simpa using hck 0 (by omega))]
    rw [ih ⟨s.all_cars ++ results s.page, s.page + 1, 0, s.files, s.sleeps ++ [(1.5 : ℚ)]⟩
      (by intro k hk; simpa [Nat.add_assoc, Nat.add_comm 1 k] using hne (k + 1) (by omega))
      (by intro k hk; simpa [Nat.add_assoc, Nat.add_comm 1 k] using hck (k + 1) (by omega))
      (by simp; omega)]
    have hblock : results s.page ++ pageBlock results (s.page + 1) m
        = pageBlock results s.page (m + 1) := by
      rw [pageBlock, pageBlock,
        show List.range' s.page (m + 1) = s.page :: List.range' (s.page + 1) m from rfl]
      simp
    simp [hblock, List.append_assoc, List.replicate_succ]
    omega

/-- One in-range iteration is one `driverStep`. -/
theorem runLoop_one (results : Nat → List Car) (s : DriverState) (hp : s.page ≤ MAX_PAGES) :
    runLoop results 1 s = driverStep results s := by
  rw [show runLoop results 1 s
      = if s.page ≤ MAX_PAGES then runLoop results 0 (driverStep results s) else s from rfl]
  rw [if_pos hp]
  rfl

/-- A backup filename is never the final filename (they differ at
character 15, `'b'` versus `'f'`). -/
theorem backupName_ne_final (p : Nat) : backupName p ≠ finalName := by
  intro h
  have hd := congrArg String.data h
  rw [backupName, finalName, String.data_append, String.data_append,
    List.append_assoc] at hd
  have h16 := congrArg (List.take 16) hd
  rw [List.take_append_of_le_length (by decide)] at h16
  revert h16
  decide

/-- Every file the loop writes carries a backup filename. -/
theorem runLoop_files_backup (results : Nat → List Car) :
    ∀ (n : Nat) (s : DriverState),
      (∀ f ∈ s.files, ∃ p, f.1 = backupName p) →
      ∀ f ∈ (runLoop results n s).files, ∃ p, f.1 = backupName p := by
  intro n
  induction n with
  | zero => intro s hs; exact hs
  | succ m ih =>
    intro s hs
    rw [show runLoop results (m + 1) s
        = if s.page ≤ MAX_PAGES then runLoop results m (driverStep results s) else s from rfl]
    by_cases hp : s.page ≤ MAX_PAGES
    · rw [if_pos hp]
      apply ih
      intro f hf
      by_cases h : results s.page = []
      · rw [driverStep] at hf
        simp only [h, if_true] at hf
        exact hs f hf
      · rw [driverStep] at hf
        simp only [h, if_false] at hf
        by_cases hck : s.page % SAVE_INTERVAL = 0
        · simp only [hck, if_true, List.mem_append] at hf
          rcases hf with hf | hf
          · exact hs f hf
          · simp at hf
            exact ⟨s.page, by rw [hf]⟩
        · simp only [hck, if_false] at hf
          exact hs f hf
    · rw [if_neg hp]
      exact hs

/-- One step commutes with forgetting the counter. -/
theorem dropCounter_step (results : Nat → List Car) (s : DriverState) :
    dropCounter (driverStep results s) = driverStepNC results (dropCounter s) := by
  by_cases h : results s.page = []
  · simp [driverStep, driverStepNC, dropCounter, h]
  · by_cases hck : s.page % SAVE_INTERVAL = 0 <;>
      simp [driverStep, driverStepNC, dropCounter, h, hck]

/-- The whole loop commutes with forgetting the counter. -/
theorem dropCounter_runLoop (results : Nat → List Car) :
    ∀ (n : Nat) (s : DriverState),
      dropCounter (runLoop results n s) = runLoopNC results n (dropCounter s) := by
  intro n
  induction n with
  | zero => intro s; rfl
  | succ m ih =>
    intro s
    rw [show runLoop results (m + 1) s
        = if s.page ≤ MAX_PAGES then runLoop results m (driverStep results s) else s from rfl]
    rw [show runLoopNC results (m + 1) (dropCounter s)
        = if (dropCounter s).page ≤ MAX_PAGES
          then runLoopNC results m (driverStepNC results (dropCounter s)) else dropCounter s
      from rfl]
    by_cases hp : s.page ≤ MAX_PAGES
    · rw [if_pos hp, if_pos (show (dropCounter s).page ≤ MAX_PAGES from hp)]
      rw [ih (driverStep results s), dropCounter_step]
    · rw [if_neg hp, if_neg (show ¬ (dropCounter s).page ≤ MAX_PAGES from hp)]

/-- C6: when each of the pages 1 through 20 yields at least one record,
the state after 20 loop iterations has written exactly one file, the
backup file named with page 20, containing all records collected
through page 20 in insertion order (page 1's records first, then
page 2's, and so on). -/
theorem C6_checkpoint_at_page_20 (results : Nat → List Car)
    (h : ∀ p, 1 ≤ p → p ≤ 20 → results p ≠ []) :
    (runLoop results 20 initState).files
      = [(backupName 20, csvContent (pageBlock results 1 20))]
    ∧ (runLoop results 20 initState).all_cars = pageBlock results 1 20 := by
  have hne : ∀ k, k < 19 → results (initState.page + k) ≠ [] := by
    intro k hk
    rw [show initState.page + k = 1 + k from rfl]
    exact h (1 + k) (by omega) (by omega)
  have hck : ∀ k, k < 19 → (initState.page + k) % SAVE_INTERVAL ≠ 0 := by
    intro k hk
    rw [show initState.page + k = 1 + k from rfl]
    show (1 + k) % 20 ≠ 0
    omega
  have hb : initState.page + 19 ≤ MAX_PAGES + 1 := by decide
  have h20 : results 20 ≠ [] := h 20 (by omega) (by omega)
  have hrb : runLoop results 19 initState
      = ⟨pageBlock results 1 19, 20, 0, [], List.replicate 19 (1.5 : ℚ)⟩ := by
    rw [runBlock results 19 initState hne hck hb]
    rfl
  have hone := runLoop_one results
    (⟨pageBlock results 1 19, 20, 0, [], List.replicate 19 (1.5 : ℚ)⟩ : DriverState)
    (by show (20 : Nat) ≤ MAX_PAGES; decide)
  have hconcat : pageBlock results 1 19 ++ results 20 = pageBlock results 1 20 := by
    rw [pageBlock, pageBlock]
    rw [show List.range' 1 20 = List.range' 1 19 ++ [20] from by decide]
    simp
  have hstep : driverStep results
      (⟨pageBlock results 1 19, 20, 0, [], List.replicate 19 (1.5 : ℚ)⟩ : DriverState)
      = ⟨pageBlock results 1 20, 21, 0,
          [(backupName 20, csvContent (pageBlock results 1 20))],
          List.replicate 19 (1.5 : ℚ) ++ [(1.5 : ℚ)]⟩ := by
    simp [driverStep, h20, SAVE_INTERVAL, backupName, hconcat]
  rw [show runLoop results 20 initState = runLoop results (19 + 1) initState from rfl,
    runLoop_add results 19 1 initState, hrb, hone, hstep]
  exact ⟨rfl, rfl⟩

/-- C6 witness: with every page yielding one concrete record, after 20
pages the single written file is the page-20 backup holding the 20
collected records. -/
theorem C6_witness :
    (∀ p, 1 ≤ p → p ≤ 20 → (fun _ : Nat => [sampleCar]) p ≠ [])
    ∧ (runLoop (fun _ : Nat => [sampleCar]) 20 initState).files
      = [(backupName 20, csvContent (pageBlock (fun _ : Nat => [sampleCar]) 1 20))] := by
  have hh : ∀ p, 1 ≤ p → p ≤ 20 → (fun _ : Nat => [sampleCar]) p ≠ [] := by
    intro p _ _
    simp
  exact ⟨hh, (C6_checkpoint_at_page_20 (fun _ => [sampleCar]) hh).1⟩

/-- C7: for every run — whether it completed, was interrupted, or
errored after `n` loop iterations — the final output file appears in
the written-file trace if and only if at least one record was
collected, and any written final file consists of the header row
followed by exactly one row per collected record in collection
order. -/
theorem C7_final_file_iff_records (results : Nat → List Car) (n : Nat) :
    ((∃ content, (finalName, content) ∈ (mainRun results n).files)
      ↔ (runLoop results n initState).all_cars ≠ [])
    ∧ (∀ content, (finalName, content) ∈ (mainRun results n).files →
        content = csvContent (runLoop results n initState).all_cars) := by
  have hback : ∀ f ∈ (runLoop results n initState).files, ∃ p, f.1 = backupName p :=
    runLoop_files_backup results n initState (by simp [initState])
  rw [mainRun]
  generalize hs : runLoop results n initState = s at hback ⊢
  by_cases hc : s.all_cars = []
  · rw [finalize, if_pos hc]
    constructor
    · constructor
      · rintro ⟨content, hmem⟩
        obtain ⟨p, hp⟩ := hback _ hmem
        exact absurd hp.symm (backupName_ne_final p)
      · intro hne
        exact absurd hc hne
    · intro content hmem
      obtain ⟨p, hp⟩ := hback _ hmem
      exact absurd hp.symm (backupName_ne_final p)
  · rw [finalize, if_neg hc]
    constructor
    · constructor
      · intro _
        exact hc
      · intro _
        exact ⟨csvContent s.all_cars, by simp⟩
    · intro content hmem
      simp only [List.mem_append, List.mem_singleton] at hmem
      rcases hmem with hmem | hmem
      · obtain ⟨p, hp⟩ := hback _ hmem
        exact absurd hp.symm (backupName_ne_final p)
      · exact (Prod.mk.injEq _ _ _ _ ▸ hmem).2

/-- C7 witness: a one-iteration run that collects one record writes the
final file, and its content is the header plus that record's row. -/
theorem C7_witness :
    (∃ content, (finalName, content) ∈ (mainRun (fun _ : Nat => [sampleCar]) 1).files)
    ∧ (∀ content, (finalName, content) ∈ (mainRun (fun _ : Nat => [sampleCar]) 1).files →
        content = csvContent (runLoop (fun _ : Nat => [sampleCar]) 1 initState).all_cars) := by
  have h := C7_final_file_iff_records (fun _ : Nat => [sampleCar]) 1
  exact ⟨h.1.mpr (by decide), h.2⟩

/-- C8 counterexample: after a page yielding one record the driver
sleeps 1.5 time-units, after a page yielding zero records it sleeps 2,
and 1.5 is not longer than 2 — the non-empty-page interval is the
shorter one, contradicting the claim. -/
theorem C8_counterexample :
    (driverStep (fun _ : Nat => [sampleCar]) initState).sleeps = [(1.5 : ℚ)]
    ∧ (driverStep (fun _ : Nat => []) initState).sleeps = [(2 : ℚ)]
    ∧ ¬ ((1.5 : ℚ) > 2) := by
  refine ⟨?_, ?_, by norm_num⟩
  · simp [driverStep, initState, SAVE_INTERVAL]
  · simp [driverStep, initState]

/-- C8 (amended): on every iteration whose page yields at least one
record the driver sleeps the fixed interval 1.5 before the next page,
on every iteration whose page yields zero records it sleeps the fixed
interval 2, and the non-empty-page interval is shorter than the
empty-page interval. -/
theorem C8_sleep_intervals (results : Nat → List Car) (s : DriverState) :
    (results s.page ≠ [] → (driverStep results s).sleeps = s.sleeps ++ [(1.5 : ℚ)])
    ∧ (results s.page = [] → (driverStep results s).sleeps = s.sleeps ++ [(2 : ℚ)])
    ∧ (1.5 : ℚ) < 2 := by
  refine ⟨?_, ?_, by norm_num⟩
  · intro h
    by_cases hck : s.page % SAVE_INTERVAL = 0 <;> simp [driverStep, h, hck]
  · intro h
    simp [driverStep, h]

/-- C8 witness: the amended non-empty clause at a concrete page. -/
theorem C8_witness :
    ((fun _ : Nat => [sampleCar]) initState.page ≠ [])
    ∧ (driverStep (fun _ : Nat => [sampleCar]) initState).sleeps
      = initState.sleeps ++ [(1.5 : ℚ)] := by
  have h : (fun _ : Nat => [sampleCar]) initState.page ≠ [] := by simp
  exact ⟨h, (C8_sleep_intervals (fun _ : Nat => [sampleCar]) initState).1 h⟩

/-- C9: the consecutive-empty counter never alters behaviour — for
every run, the accumulated records, the page counter, the files
written, and the sleeps performed equal those of the same run of the
driver with the counter removed; the counter is written but never
read. -/
theorem C9_counter_inert (results : Nat → List Car) (n : Nat) :
    dropCounter (mainRun results n) = mainRunNC results n := by
  rw [mainRun, mainRunNC, show initStateNC = dropCounter initState from rfl,
    ← dropCounter_runLoop results n initState]
  generalize runLoop results n initState = s
  by_cases h : s.all_cars = [] <;>
    simp [finalize, finalizeNC, dropCounter, h]

end Scraper
